import Mathlib

/-!
Verification of the `Dev` command of the nebe devstack CLI
(`lib/commands/dev.js`, read here as `src/unnamed/part_001`) and of
`lib/utils/checkConfig.js`.

The development shallowly embeds:
* the string-splice markup-injection pipeline of the `bundler.on('bundled')`
  handler (JavaScript `indexOf`/`replace` on the built `index.html`),
* the port computation `basePort + i` and the per-target startup loop with
  its `try`/`catch`,
* the preflight reserved-port loop, the empty-folders and empty-selection
  guards of `Dev.handle`,
* the `fs.watch` handlers for `schema.json` (a 200 ms `setTimeout` per
  change event, never cancelled) and for `config.json` (re-validation only),
* the `checkConfig` validator.

Documents are modelled as `List Char`.  `leadsWith`, `occursIn` and
`replaceFirst` mirror JavaScript `String.prototype.startsWith`,
`indexOf(...) !== -1` and `replace` with a string pattern: `replace`
rewrites only the first occurrence and performs the ECMAScript
`GetSubstitution` expansion of `$$`, `$&`, `$\x60` and `$\x27` inside the
replacement string (`substDollars`).
-/

/-- Boolean test that `p` is a leading segment of `s`. -/
def leadsWith : List Char → List Char → Bool
  | [], _ => true
  | _ :: _, [] => false
  | p :: ps, c :: cs => if p = c then leadsWith ps cs else false

/-- Boolean substring test, mirroring JavaScript `s.indexOf(p) !== -1`. -/
def occursIn (p : List Char) : List Char → Bool
  | [] => leadsWith p []
  | c :: cs => leadsWith p (c :: cs) || occursIn p cs

/-- Characters that form a substitution pattern after a `$` in the
replacement string of `String.prototype.replace` with a string pattern:
`$$`, `$&`, `$\x60`, `$\x27` (a string pattern has no capture groups, so
`$n`, `$<` and every other `$`-sequence stay literal text). -/
def isDollarSpecial (c : Char) : Bool :=
  c = '$' || c = '&' || c = '\x60' || c = '\x27'

/-- ECMAScript `GetSubstitution` for a string search pattern: expand `$$`
to `$`, `$&` to the matched text, `$\x60` to the text before the match and
`$\x27` to the text after the match; every other character, including a
`$` not followed by one of these, is copied literally. -/
def substDollars (matched pre post : List Char) : List Char → List Char
  | [] => []
  | [c] => [c]
  | c :: d :: rest =>
    if c = '$' then
      if d = '$' then '$' :: substDollars matched pre post rest
      else if d = '&' then matched ++ substDollars matched pre post rest
      else if d = '\x60' then pre ++ substDollars matched pre post rest
      else if d = '\x27' then post ++ substDollars matched pre post rest
      else '$' :: substDollars matched pre post (d :: rest)
    else c :: substDollars matched pre post (d :: rest)

/-- A replacement string on which `GetSubstitution` is the identity: it
contains no `$` immediately followed by a substitution character. -/
def dollarFree : List Char → Bool
  | [] => true
  | [_] => true
  | c :: d :: rest =>
    if c = '$' then
      if isDollarSpecial d then false else dollarFree (d :: rest)
    else dollarFree (d :: rest)

/-- Split `s` at the first occurrence of `p`: `some (before, after)` with
`s = before ++ p ++ after`, or `none` when `p` does not occur. -/
def splitFirst (p : List Char) : List Char → Option (List Char × List Char)
  | [] => if leadsWith p [] then some ([], []) else none
  | c :: cs =>
    if leadsWith p (c :: cs) then some ([], (c :: cs).drop p.length)
    else
      match splitFirst p cs with
      | none => none
      | some (a, b) => some (c :: a, b)

/-- Replacement of the first occurrence of `p` in `s` by `r`, mirroring
JavaScript `s.replace(p, r)` with a string pattern: the replacement is
spliced through `GetSubstitution` (`substDollars`), and when `p` does not
occur the text is returned unchanged. -/
def replaceFirst (s p r : List Char) : List Char :=
  match splitFirst p s with
  | none => s
  | some (a, b) => a ++ (substDollars p a b r ++ b)

/-- Last character of a list, if any. -/
def lastChar : List Char → Option Char
  | [] => none
  | [c] => some c
  | _ :: c :: cs => lastChar (c :: cs)

/-!
Markup-injection pipeline of the `bundled` handler (part_001 lines 259-339).
The interpolated inputs of the template literals are collected in `Ctx`:
`localMode` is the `--local` flag, `fill` is the demo fill produced by
`getFill(schemaPath)`, `folder` is the size-folder name, `visualPath` the
selected visual, and `timeStr` the rendered `new Date().getTime()`
cache-busting value.
-/

/-- Inputs interpolated into the injected markup fragments. -/
structure Ctx where
  localMode : Bool
  fill : List Char
  folder : List Char
  visualPath : List Char
  timeStr : List Char

/-- Anchor tag of the head-anchored markers (part_001 lines 276-321). -/
def headAnchor : List Char := "</head>".data

/-- Anchor tag of the demo-fill marker (part_001 line 283). -/
def bodyAnchor : List Char := "</body>".data

def polyOpen : List Char := "<!--NEBE_POLYFILLS-->".data

def demoOpen : List Char := "<!--NEBE_DEMO_FILL-->".data

def clientOpen : List Char := "<!--NEBE_VISUAL_CLIENT-->".data

def envOpen : List Char := "<!--NEBE_ENV-->".data

def titleOpen : List Char := "<!--NEBE_DOCUMENT_TITLE-->".data

def helperOpen : List Char := "<!--NEBE_VISUAL_HELPER-->".data

/-- Fragment spliced in front of `</head>` for `NEBE_POLYFILLS`
(part_001 line 276). -/
def polyfillsBlock : List Char :=
  "\n<!--NEBE_POLYFILLS--><script src=\"https://cdnjs.cloudflare.com/ajax/libs/promise-polyfill/8.1.3/polyfill.min.js\"></script><script src=\"https://cdn.jsdelivr.net/npm/regenerator-runtime@0.13.7/runtime.min.js\"></script><!--/NEBE_POLYFILLS-->\n".data

def demoPre : List Char := "\n<!--NEBE_DEMO_FILL-->\n".data

def demoSuf : List Char := "\n<!--/NEBE_DEMO_FILL-->\n".data

/-- Fragment spliced in front of `</body>` for `NEBE_DEMO_FILL`
(part_001 line 283). -/
def demoFillBlock (ctx : Ctx) : List Char := demoPre ++ (ctx.fill ++ demoSuf)

def clientLocalPre : List Char :=
  "<script src=\"http://localhost:1236/visual-client.min.js?cb=".data

def clientCdnPre : List Char :=
  "<script src=\"https://cdn.nebe.app/store/serving/dist/visual-client.min.js?cb=".data

def scriptClose : List Char := "\"></script>".data

/-- The visual-client script tag (part_001 lines 264-266). -/
def visualClientScript (ctx : Ctx) : List Char :=
  if ctx.localMode then clientLocalPre ++ (ctx.timeStr ++ scriptClose)
  else clientCdnPre ++ (ctx.timeStr ++ scriptClose)

def clientPre : List Char := "\n<!--NEBE_VISUAL_CLIENT-->\n".data

def clientSuf : List Char := "\n<!--/NEBE_VISUAL_CLIENT-->\n".data

/-- Fragment spliced in front of `</head>` for `NEBE_VISUAL_CLIENT`
(part_001 line 290). -/
def clientBlock (ctx : Ctx) : List Char :=
  clientPre ++ (visualClientScript ctx ++ clientSuf)

def envPre : List Char :=
  "\n<!--NEBE_ENV-->\n<script>window.MODE = \x27dev\x27; window.FOLDER = \x27".data

def envSuf : List Char := "\x27;</script>\n<!--/NEBE_ENV-->\n".data

/-- Fragment spliced in front of `</head>` for `NEBE_ENV`
(part_001 line 297). -/
def envBlock (ctx : Ctx) : List Char := envPre ++ (ctx.folder ++ envSuf)

def titlePre : List Char :=
  "\n<!--NEBE_DOCUMENT_TITLE-->\n<script>document.title = \"".data

def titleSuf : List Char := "\";</script>\n<!--/NEBE_DOCUMENT_TITLE-->\n".data

/-- Fragment spliced in front of `</head>` for `NEBE_DOCUMENT_TITLE`
(part_001 line 304). -/
def titleBlock (ctx : Ctx) : List Char :=
  titlePre ++ (ctx.folder ++ (" ".data ++ (ctx.visualPath ++ titleSuf)))

/-- The visual-helper base URL (part_001 lines 311-313). -/
def visualHelperUrl (ctx : Ctx) : List Char :=
  if ctx.localMode then "http://localhost:1235/".data
  else "https://cdn.nebe.app/store/utils/dist/".data

def helperPre : List Char :=
  "\n<!--NEBE_VISUAL_HELPER-->\n<link rel=\"stylesheet\" href=\"".data

def helperMid : List Char :=
  "visual-helper.min.css\" type=\"text/css\">\n<script src=\"".data

def helperSuf : List Char :=
  "visual-helper.min.js\"></script>\n<!--/NEBE_VISUAL_HELPER-->\n".data

/-- Fragment spliced in front of `</head>` for `NEBE_VISUAL_HELPER`
(part_001 line 321). -/
def helperBlock (ctx : Ctx) : List Char :=
  helperPre ++ (visualHelperUrl ctx ++ (helperMid ++ (visualHelperUrl ctx ++ helperSuf)))

/-- One idempotent injection point: open token, injected fragment, and the
anchor tag in front of which the fragment is spliced. -/
structure Marker where
  openTok : List Char
  block : List Char
  anchor : List Char

/-- One `if (markupContents.indexOf(openTok) === -1) markupContents =
markupContents.replace(anchor, block + anchor)` step of the handler. -/
def applyMarker (s : List Char) (m : Marker) : List Char :=
  if occursIn m.openTok s then s
  else replaceFirst s m.anchor (m.block ++ m.anchor)

/-- Sequential application of a list of markers. -/
def runMarkers (ms : List Marker) (s : List Char) : List Char :=
  ms.foldl applyMarker s

/-- The six markers in the order the handler applies them
(part_001 lines 274, 281, 288, 295, 302, 319). -/
def markers (ctx : Ctx) : List Marker :=
  [ { openTok := polyOpen, block := polyfillsBlock, anchor := headAnchor },
    { openTok := demoOpen, block := demoFillBlock ctx, anchor := bodyAnchor },
    { openTok := clientOpen, block := clientBlock ctx, anchor := headAnchor },
    { openTok := envOpen, block := envBlock ctx, anchor := headAnchor },
    { openTok := titleOpen, block := titleBlock ctx, anchor := headAnchor },
    { openTok := helperOpen, block := helperBlock ctx, anchor := headAnchor } ]

/-- The whole marker-injection pipeline of the `bundled` handler applied to a
document text. -/
def applyMarkup (ctx : Ctx) (s : List Char) : List Char :=
  runMarkers (markers ctx) s

/-- Structural facts about one marker that the idempotence argument uses: the
open token and the anchor are HTML tags whose opening bracket occurs only at
position zero, the anchor contains no newline, the injected fragment is
newline-delimited on both sides, and the fragment contains its own open
token. -/
structure MarkerWF (m : Marker) : Prop where
  openUniq : '<' ∉ m.openTok.drop 1
  anchorHead : m.anchor.head? = some '<'
  anchorNoNl : '\n' ∉ m.anchor
  blockHead : m.block.head? = some '\n'
  blockLast : lastChar m.block = some '\n'
  blockHasOpen : occursIn m.openTok m.block = true
  blockDollarFree : dollarFree (m.block ++ m.anchor) = true


/-- Occurrence count (number of match positions) of `p` in a text. -/
def countOccur (p : List Char) : List Char → Nat
  | [] => if leadsWith p [] then 1 else 0
  | c :: cs => (if leadsWith p (c :: cs) then 1 else 0) + countOccur p cs

/-- Index of the first occurrence of `p`, mirroring JavaScript `indexOf`
(`none` for `-1`). -/
def firstIdx (p : List Char) : List Char → Option Nat
  | [] => if leadsWith p [] then some 0 else none
  | c :: cs =>
    if leadsWith p (c :: cs) then some 0
    else Option.map (fun n => n + 1) (firstIdx p cs)

/-- Sample interpolated inputs: CDN mode, an ordinary fill, an ordinary
size folder. -/
def ctxSample : Ctx :=
  { localMode := false, fill := "<div>demo</div>".data,
    folder := "300x300".data, visualPath := "brand/template".data,
    timeStr := "1650000000000".data }

/-- A built document containing no marker tokens yet. -/
def docSample : List Char :=
  "<html><head><title>t</title></head><body><main></main></body></html>".data

/-- Result of one injection pass over the sample document. -/
def bundledSample : List Char := applyMarkup ctxSample docSample

/-- Interpolated inputs whose fill itself contains a `</head>` tag. -/
def ctxHeadFill : Ctx :=
  { localMode := false, fill := "x</head>y".data, folder := "300x300".data,
    visualPath := "brand/template".data, timeStr := "123".data }

/-- A document with a body but no head. -/
def docBodyOnly : List Char := "<body></body>".data

/-!
Per-target startup loop of `Dev.handle` (part_001 lines 202-355) and the
port computation (line 238).  `serveFails i = true` models
`bundler.serve(port)` throwing synchronously for target `i`; the `catch`
reports to Sentry and sets `state.bundlers[i].error = false` (the
assignment the source really performs), and the loop continues.
-/

/-- Port for the target with ordinal index `i` (part_001 line 238,
`parseInt(basePort) + parseInt(i)`). -/
def portFor (basePort ordinalIndex : Nat) : Nat := basePort + ordinalIndex

/-- The session record kept in `state.bundlers[i]`: the folder is recorded
before the `try`, the port only on success, `error` is assigned `false` on
both paths (part_001 lines 214, 345-346, 353), and `served` records whether
the bundler handle was pushed (line 343). -/
structure BundlerRecord where
  folder : List Char
  port : Option Nat
  error : Bool
  served : Bool
deriving DecidableEq

/-- One iteration of the startup loop for target `i`. -/
def startTarget (basePort i : Nat) (folder : List Char)
    (serveFails : Bool) : BundlerRecord :=
  if serveFails then
    { folder := folder, port := none, error := false, served := false }
  else
    { folder := folder, port := some (portFor basePort i), error := false,
      served := true }

def runStartupAux (basePort : Nat) (serveFails : Nat → Bool) :
    Nat → List (List Char) → List BundlerRecord
  | _, [] => []
  | i, folder :: rest =>
    startTarget basePort i folder (serveFails i) ::
      runStartupAux basePort serveFails (i + 1) rest

/-- The whole startup loop over the selected folders. -/
def runStartup (basePort : Nat) (selected : List (List Char))
    (serveFails : Nat → Bool) : List BundlerRecord :=
  runStartupAux basePort serveFails 0 selected

def sentryReportsAux (serveFails : Nat → Bool) :
    Nat → List (List Char) → List Nat
  | _, [] => []
  | i, _ :: rest =>
    (if serveFails i then [i] else []) ++
      sentryReportsAux serveFails (i + 1) rest

/-- Indices for which `Sentry.captureException` runs (part_001 line 349):
exactly the loop iterations whose `try` block throws. -/
def sentryReports (selected : List (List Char))
    (serveFails : Nat → Bool) : List Nat :=
  sentryReportsAux serveFails 0 selected

def folderA : List Char := "300x300".data

def folderB : List Char := "728x90".data

/-!
The `checkConfig` validator (lib/utils/checkConfig.js).  `present` models
`fs.existsSync(configPath)`; `content = none` models `readJsonSync`
returning a falsy value; each field is `none` when the JSON value is not a
string.  A missing description only logs a warning and does not change the
returned value.
-/

structure ConfigContent where
  format : Option String
  name : Option String
  description : Option String
deriving DecidableEq

structure ConfigFile where
  present : Bool
  content : Option ConfigContent
deriving DecidableEq

/-- Allowed values of `config.format` (checkConfig.js line 24). -/
def allowedFormats : List String :=
  ["fallback", "html", "print", "image", "video", "audio", "source"]

/-- The validator of checkConfig.js lines 4-44. -/
def checkConfig (file : ConfigFile) : Bool :=
  if file.present = false then false
  else
    match file.content with
    | none => false
    | some c =>
      match c.format with
      | none => false
      | some f =>
        if allowedFormats.contains f = false then false
        else
          match c.name with
          | none => false
          | some _ => true

/-- A config file that validates. -/
def cfgSample : ConfigFile :=
  { present := true,
    content := some { format := some "html", name := some "Demo",
                      description := some "d" } }

/-!
Preflight port check and fatal guards of `Dev.handle` (part_001 lines
37-60, 114-117, 144-153, 189-198) in their source order, followed by the
startup loop.  `ProbeResult.err` models `tcpPortUsed.check` throwing, which
the `catch` turns into a logged warning and a skipped check.
-/

inductive ProbeResult
  | free
  | inUse
  | err
deriving DecidableEq

inductive FatalError
  | portBusy (port : Nat)
  | invalidConfig
  | noTargetsFound
  | noTargetsSelected
deriving DecidableEq

/-- The reserved ports checked before startup (part_001 lines 37-38). -/
def portsToCheck : List Nat := [1200, 1400]

/-- The preflight loop: the first definitively busy port aborts; a probe
error falls through to the next port (part_001 lines 39-60). -/
def preflightLoop (probe : Nat → ProbeResult) : List Nat → Option Nat
  | [] => none
  | p :: rest =>
    if probe p = ProbeResult.inUse then some p else preflightLoop probe rest

def preflightBusyPort (probe : Nat → ProbeResult) : Option Nat :=
  preflightLoop probe portsToCheck

/-- The claim-relevant control flow of `Dev.handle`: preflight port loop,
config gate, empty-folders guard, empty-selection guard, then the startup
loop.  Interactive selection, folder preparation, git status and the state
server do not influence these steps and are abstracted away. -/
def devRun (probe : Nat → ProbeResult) (file : ConfigFile)
    (folders selected : List (List Char)) (serveFails : Nat → Bool) :
    Except FatalError (List BundlerRecord) :=
  match preflightBusyPort probe with
  | some p => Except.error (FatalError.portBusy p)
  | none =>
    if checkConfig file = false then Except.error FatalError.invalidConfig
    else if folders.isEmpty then Except.error FatalError.noTargetsFound
    else if selected.isEmpty then Except.error FatalError.noTargetsSelected
    else Except.ok (runStartup 1200 selected serveFails)

/-!
Watchers (part_001 lines 359-373).  The schema watcher schedules a
`setTimeout(..., 200)` per change event and never cancels a pending timer;
each fired timer runs `checkSchema` once, regenerates the fill once, and
calls `bundler.bundle()` on every live handle.  The config watcher only
re-runs `checkConfig`.
-/

structure WatchState where
  pendingTimers : List Nat
  schemaValidations : Nat
  fillRegenerations : Nat
  rebuildSignals : Nat
deriving DecidableEq

def initialWatchState : WatchState :=
  { pendingTimers := [], schemaValidations := 0, fillRegenerations := 0,
    rebuildSignals := 0 }

/-- One filesystem change event on `schema.json` at time `t`: the handler
logs and schedules a timer for `t + 200`; no pending timer is cancelled
(part_001 lines 360-367). -/
def schemaChangeEvent (t : Nat) (s : WatchState) : WatchState :=
  { s with pendingTimers := s.pendingTimers ++ [t + 200] }

/-- Firing the pending timers: each runs one `checkSchema`, one `getFill`,
and one `bundle()` per live bundler handle (part_001 lines 362-366). -/
def fireTimers (numBundlers : Nat) : List Nat → WatchState → WatchState
  | [], s => s
  | _ :: rest, s =>
    fireTimers numBundlers rest
      { pendingTimers := rest,
        schemaValidations := s.schemaValidations + 1,
        fillRegenerations := s.fillRegenerations + 1,
        rebuildSignals := s.rebuildSignals + numBundlers }

/-- Delivering a burst of change events and then letting every scheduled
timer fire. -/
def runSchemaWatch (numBundlers : Nat) (events : List Nat) : WatchState :=
  fireTimers numBundlers
    (events.foldl (fun s t => schemaChangeEvent t s)
      initialWatchState).pendingTimers
    (events.foldl (fun s t => schemaChangeEvent t s) initialWatchState)

/-- Session state visible to the `/state` endpoint that the watchers could
touch. -/
structure SessionState where
  bundlers : List BundlerRecord
  rebuildSignals : Nat
  configValidations : Nat
  lastConfigResult : Option Bool
deriving DecidableEq

/-- The `fs.watch(configPath)` handler (part_001 lines 370-373): it logs and
re-runs `checkConfig`, nothing else. -/
def configChangeEvent (file : ConfigFile) (s : SessionState) : SessionState :=
  { s with configValidations := s.configValidations + 1,
           lastConfigResult := some (checkConfig file) }

theorem leadsWith_iff (p : List Char) : ∀ s : List Char,
    leadsWith p s = true ↔ ∃ t, p ++ t = s := by
  induction p with
  | nil => intro s; simp [leadsWith]
  | cons a ps ih =>
    intro s
    cases s with
    | nil => simp [leadsWith]
    | cons b t =>
      by_cases hab : a = b
      · subst hab
        simp [leadsWith, ih t]
      · simp [leadsWith, hab]

theorem occursIn_iff (p : List Char) : ∀ s : List Char,
    occursIn p s = true ↔ ∃ a b, a ++ (p ++ b) = s := by
  intro s
  induction s with
  | nil =>
    simp only [occursIn, leadsWith_iff]
    constructor
    · rintro ⟨t, ht⟩
      exact ⟨[], t, ht⟩
    · rintro ⟨a, b, hab⟩
      rcases List.append_eq_nil.1 hab with ⟨rfl, h2⟩
      exact ⟨b, h2⟩
  | cons c cs ih =>
    simp only [occursIn, Bool.or_eq_true, leadsWith_iff, ih]
    constructor
    · rintro (⟨t, ht⟩ | ⟨a, b, hab⟩)
      · exact ⟨[], t, ht⟩
      · exact ⟨c :: a, b, by rw [List.cons_append, hab]⟩
    · rintro ⟨a, b, hab⟩
      cases a with
      | nil => exact Or.inl ⟨b, hab⟩
      | cons a0 a' =>
        rw [List.cons_append] at hab
        injection hab with h1 h2
        subst h1
        exact Or.inr ⟨a', b, h2⟩

theorem occursIn_false_iff (p s : List Char) :
    occursIn p s = false ↔ ∀ a b, a ++ (p ++ b) ≠ s := by
  rw [← Bool.not_eq_true, occursIn_iff]
  push_neg
  rfl

theorem occursIn_append_left {p u : List Char} (h : occursIn p u = true)
    (v : List Char) : occursIn p (u ++ v) = true := by
  rcases (occursIn_iff p u).1 h with ⟨a, b, hab⟩
  refine (occursIn_iff p (u ++ v)).2 ⟨a, b ++ v, ?_⟩
  rw [← hab]
  simp [List.append_assoc]

theorem occursIn_append_right {p v : List Char} (u : List Char)
    (h : occursIn p v = true) : occursIn p (u ++ v) = true := by
  rcases (occursIn_iff p v).1 h with ⟨a, b, hab⟩
  refine (occursIn_iff p (u ++ v)).2 ⟨u ++ a, b, ?_⟩
  rw [← hab]
  simp [List.append_assoc]

/-- Decomposition of an occurrence inside an append: the pattern occurs in the
left part, in the right part, or it spans the border, splitting into a
nonempty suffix-part of `u` and a nonempty leading part of `v`. -/
theorem occursIn_append_cases {p u v : List Char}
    (h : occursIn p (u ++ v) = true) :
    occursIn p u = true ∨ occursIn p v = true ∨
      ∃ x y, x ++ y = p ∧ x ≠ [] ∧ y ≠ [] ∧
        (∃ u', u' ++ x = u) ∧ (∃ v', y ++ v' = v) := by
  rcases (occursIn_iff p (u ++ v)).1 h with ⟨a, b, hab⟩
  rcases List.append_eq_append_iff.1 hab with ⟨w, hw1, hw2⟩ | ⟨w, hw1, hw2⟩
  · -- u = a ++ w, p ++ b = w ++ v
    rcases List.append_eq_append_iff.1 hw2 with ⟨z, hz1, hz2⟩ | ⟨z, hz1, hz2⟩
    · -- w = p ++ z, b = z ++ v : p occurs in u
      exact Or.inl ((occursIn_iff p u).2 ⟨a, z, by rw [hw1, hz1]⟩)
    · -- p = w ++ z, v = z ++ b
      cases hw : w with
      | nil =>
        subst hw
        exact Or.inr (Or.inl ((occursIn_iff p v).2
          ⟨[], b, by rw [hz2, hz1]; simp⟩))
      | cons w0 w' =>
        cases hz : z with
        | nil =>
          subst hz
          refine Or.inl ((occursIn_iff p u).2 ⟨a, [], ?_⟩)
          rw [hw1, hz1]
          simp
        | cons z0 z' =>
          refine Or.inr (Or.inr ⟨w, z, hz1.symm, by simp [hw], by simp [hz],
            ⟨a, hw1.symm⟩, ⟨b, hz2.symm⟩⟩)
  · -- a = u ++ w, v = w ++ (p ++ b) : p occurs in v
    exact Or.inr (Or.inl ((occursIn_iff p v).2 ⟨w, b, hw2.symm⟩))

theorem head?_append_left {u : List Char} (v : List Char) (h : u ≠ []) :
    (u ++ v).head? = u.head? := by
  cases u with
  | nil => exact absurd rfl h
  | cons c t => rfl

theorem lastChar_append (u : List Char) : ∀ {v : List Char}, v ≠ [] →
    lastChar (u ++ v) = lastChar v := by
  induction u with
  | nil => intro v _; rfl
  | cons c u' ih =>
    intro v hv
    have h1 : u' ++ v ≠ [] := by
      intro h
      exact hv (List.append_eq_nil.1 h).2
    cases h2 : u' ++ v with
    | nil => exact absurd h2 h1
    | cons d w =>
      calc lastChar ((c :: u') ++ v) = lastChar (c :: d :: w) := by
            rw [List.cons_append, h2]
        _ = lastChar (d :: w) := rfl
        _ = lastChar (u' ++ v) := by rw [h2]
        _ = lastChar v := ih hv

theorem lastChar_mem : ∀ {l : List Char} {c : Char},
    lastChar l = some c → c ∈ l := by
  intro l
  induction l with
  | nil => intro c h; simp [lastChar] at h
  | cons a t ih =>
    intro c h
    cases t with
    | nil =>
      simp only [lastChar, Option.some.injEq] at h
      simp [h]
    | cons b t' =>
      have h' : lastChar (b :: t') = some c := h
      exact List.mem_cons_of_mem a (ih h')

theorem exists_lastChar : ∀ {l : List Char}, l ≠ [] →
    ∃ c, lastChar l = some c := by
  intro l
  induction l with
  | nil => intro h; exact absurd rfl h
  | cons a t ih =>
    intro _
    cases t with
    | nil => exact ⟨a, rfl⟩
    | cons b t' =>
      rcases ih (by simp) with ⟨c, hc⟩
      exact ⟨c, hc⟩

/-- A spanning occurrence pins the last character of the left side: the last
character of `u` exists and belongs to the pattern. -/
theorem span_mem_left {tok x y u u' : List Char} (hxy : x ++ y = tok)
    (hx : x ≠ []) (hu : u' ++ x = u) :
    ∃ c, lastChar u = some c ∧ c ∈ tok := by
  rcases exists_lastChar hx with ⟨c, hc⟩
  refine ⟨c, ?_, ?_⟩
  · rw [← hu, lastChar_append u' hx]
    exact hc
  · rw [← hxy]
    exact List.mem_append.2 (Or.inl (lastChar_mem hc))

/-- A spanning occurrence pins the first character of the right side: the head
of `v` exists and belongs to the pattern. -/
theorem span_mem_right {tok x y v v' : List Char} (hxy : x ++ y = tok)
    (hy : y ≠ []) (hv : y ++ v' = v) :
    ∃ c, v.head? = some c ∧ c ∈ tok := by
  cases y with
  | nil => exact absurd rfl hy
  | cons c ys =>
    refine ⟨c, ?_, ?_⟩
    · rw [← hv]
      rfl
    · rw [← hxy]
      exact List.mem_append.2 (Or.inr (List.mem_cons_self c ys))

/-- When a token contains its own head character only at position zero, no
occurrence of the token can strictly straddle a position at which that
character reappears. -/
theorem span_head_unique {tok x y : List Char} {c : Char}
    (hxy : x ++ y = tok) (hx : x ≠ []) (hy : y.head? = some c)
    (hc : c ∉ tok.drop 1) : False := by
  cases x with
  | nil => exact absurd rfl hx
  | cons x0 x' =>
    cases y with
    | nil => simp at hy
    | cons y0 y' =>
      have hy0 : y0 = c := by
        simpa using hy
      subst hy0
      rw [← hxy] at hc
      exact hc (by simp)

theorem splitFirst_not_occursIn {p : List Char} :
    ∀ {s : List Char}, occursIn p s = false → splitFirst p s = none := by
  intro s
  induction s with
  | nil =>
    intro h
    simp only [occursIn] at h
    simp [splitFirst, h]
  | cons c cs ih =>
    intro h
    simp only [occursIn, Bool.or_eq_false_iff] at h
    simp [splitFirst, h.1, ih h.2]

theorem splitFirst_occursIn (p : List Char) :
    ∀ {s : List Char}, occursIn p s = true →
      ∃ a b, a ++ (p ++ b) = s ∧ splitFirst p s = some (a, b) := by
  intro s
  induction s with
  | nil =>
    intro h
    simp only [occursIn] at h
    rcases (leadsWith_iff p []).1 h with ⟨t, ht⟩
    rcases List.append_eq_nil.1 ht with ⟨rfl, rfl⟩
    exact ⟨[], [], rfl, by simp [splitFirst, leadsWith]⟩
  | cons c cs ih =>
    intro h
    by_cases hl : leadsWith p (c :: cs) = true
    · rcases (leadsWith_iff p (c :: cs)).1 hl with ⟨t, ht⟩
      refine ⟨[], t, by simpa using ht, ?_⟩
      simp only [splitFirst, if_pos hl]
      rw [← ht, List.drop_left]
    · have ho : occursIn p cs = true := by
        simp only [occursIn, Bool.or_eq_true] at h
        exact h.resolve_left hl
      rcases ih ho with ⟨a, b, h1, h2⟩
      refine ⟨c :: a, b, by simp [h1], ?_⟩
      simp [splitFirst, hl, h2]

theorem replaceFirst_not_occursIn {p r : List Char} {s : List Char}
    (h : occursIn p s = false) : replaceFirst s p r = s := by
  rw [replaceFirst, splitFirst_not_occursIn h]

theorem replaceFirst_occursIn (p r : List Char) {s : List Char}
    (h : occursIn p s = true) :
    ∃ a b, a ++ (p ++ b) = s ∧
      replaceFirst s p r = a ++ (substDollars p a b r ++ b) := by
  rcases splitFirst_occursIn p h with ⟨a, b, h1, h2⟩
  exact ⟨a, b, h1, by rw [replaceFirst, h2]⟩

/-- On a replacement free of `$`-substitution pairs, `GetSubstitution` is
the identity. -/
theorem substDollars_id (matched pre post : List Char) :
    ∀ {r : List Char}, dollarFree r = true →
      substDollars matched pre post r = r := by
  intro r
  induction r with
  | nil =>
    intro _
    rfl
  | cons c tail ih =>
    intro h
    cases tail with
    | nil => rfl
    | cons d rest =>
      by_cases hc : c = '$'
      · subst hc
        rw [dollarFree, if_pos rfl] at h
        have hd : isDollarSpecial d = false := by
          cases hb : isDollarSpecial d with
          | false => rfl
          | true =>
            rw [if_pos hb] at h
            cases h
        rw [if_neg (by simp [hd])] at h
        have hd4 := hd
        simp only [isDollarSpecial, Bool.or_eq_false_iff,
          decide_eq_false_iff_not] at hd4
        rw [substDollars, if_pos rfl, if_neg hd4.1.1.1, if_neg hd4.1.1.2,
          if_neg hd4.1.2, if_neg hd4.2, ih h]
      · have htail : dollarFree (d :: rest) = true := by
          rw [dollarFree, if_neg hc] at h
          exact h
        rw [substDollars, if_neg hc, ih htail]

/-- Dollar-freedom is preserved by appending when no `$` at the end of the
left part can pair with a substitution character at the head of the right
part. -/
theorem dollarFree_append :
    ∀ {A B : List Char}, dollarFree A = true → dollarFree B = true →
      (lastChar A ≠ some '$' ∨
        ∀ d, B.head? = some d → isDollarSpecial d = false) →
      dollarFree (A ++ B) = true := by
  intro A
  induction A with
  | nil =>
    intro B _ hB _
    simpa using hB
  | cons c A' ih =>
    intro B hA hB hbound
    cases hA' : A' with
    | nil =>
      subst hA'
      cases B with
      | nil => rfl
      | cons d rest2 =>
        by_cases hc : c = '$'
        · subst hc
          have hd : isDollarSpecial d = false := by
            rcases hbound with hb | hb
            · exact absurd rfl hb
            · exact hb d rfl
          show dollarFree ('$' :: d :: rest2) = true
          rw [dollarFree, if_pos rfl, if_neg (by simp [hd])]
          exact hB
        · show dollarFree (c :: d :: rest2) = true
          rw [dollarFree, if_neg hc]
          exact hB
    | cons c2 A'' =>
      subst hA'
      have hlast : lastChar (c :: c2 :: A'') = lastChar (c2 :: A'') := rfl
      rw [hlast] at hbound
      by_cases hc : c = '$'
      · subst hc
        have hd : isDollarSpecial c2 = false := by
          by_cases hsp : isDollarSpecial c2 = true
          · rw [dollarFree, if_pos rfl, if_pos hsp] at hA
            cases hA
          · simpa using hsp
        have htail : dollarFree (c2 :: A'') = true := by
          rw [dollarFree, if_pos rfl, if_neg (by simp [hd])] at hA
          exact hA
        show dollarFree ('$' :: c2 :: (A'' ++ B)) = true
        rw [dollarFree, if_pos rfl, if_neg (by simp [hd])]
        exact ih htail hB hbound
      · have htail : dollarFree (c2 :: A'') = true := by
          rw [dollarFree, if_neg hc] at hA
          exact hA
        show dollarFree (c :: c2 :: (A'' ++ B)) = true
        rw [dollarFree, if_neg hc]
        exact ih htail hB hbound

/-- Transport of a concrete head character into the boundary condition of
`dollarFree_append`. -/
theorem headSafe_of_head {B : List Char} {d0 : Char} (h : B.head? = some d0)
    (hd : isDollarSpecial d0 = false) :
    ∀ d, B.head? = some d → isDollarSpecial d = false := by
  intro d hdq
  rw [h] at hdq
  injection hdq with e
  rw [← e]
  exact hd

theorem ne_nil_of_head? {l : List Char} {c : Char} (h : l.head? = some c) :
    l ≠ [] := by
  cases l with
  | nil => simp at h
  | cons a t => simp

/-- Applying one marker never removes an occurrence of a token whose `<`
appears only at its head (the splice point sits immediately before an
anchor starting with `<`, so no such occurrence can straddle it). -/
theorem occursIn_applyMarker_mono {tok : List Char}
    (h2 : '<' ∉ tok.drop 1) (m : Marker)
    (ha : m.anchor.head? = some '<')
    (hdf : dollarFree (m.block ++ m.anchor) = true) (s : List Char)
    (h : occursIn tok s = true) : occursIn tok (applyMarker s m) = true := by
  rw [applyMarker]
  by_cases ho : occursIn m.openTok s = true
  · rw [if_pos ho]
    exact h
  · rw [if_neg ho]
    cases hb : occursIn m.anchor s with
    | false =>
      rw [replaceFirst_not_occursIn hb]
      exact h
    | true =>
      rcases replaceFirst_occursIn m.anchor (m.block ++ m.anchor) hb
        with ⟨a, b, hs, hr⟩
      rw [substDollars_id m.anchor a b hdf] at hr
      rw [hr]
      rw [← hs] at h
      rcases occursIn_append_cases h with h' | h' | hspan
      · exact occursIn_append_left h' _
      · have t1 : occursIn tok (m.block ++ (m.anchor ++ b)) = true :=
          occursIn_append_right _ h'
        have t2 : occursIn tok (a ++ (m.block ++ (m.anchor ++ b))) = true :=
          occursIn_append_right _ t1
        rw [← List.append_assoc m.block m.anchor b] at t2
        exact t2
      · exfalso
        rcases hspan with ⟨x, y, hxy, hx, hy, ⟨u', hu⟩, ⟨v', hv⟩⟩
        have hanchne : m.anchor ≠ [] := ne_nil_of_head? ha
        have hyh : y.head? = some '<' := by
          have hyne : y ≠ [] := hy
          have e1 : (y ++ v').head? = y.head? := head?_append_left v' hyne
          rw [hv] at e1
          rw [← e1, head?_append_left b hanchne]
          exact ha
        exact span_head_unique hxy hx hyh h2

/-- Applying one newline-delimited marker to a text that does not contain a
newline-free token cannot introduce that token (unless the token occurs in
the injected fragment itself). -/
theorem not_occursIn_applyMarker {tok : List Char} (hnl : '\n' ∉ tok)
    (m : Marker) (hbh : m.block.head? = some '\n')
    (hbl : lastChar m.block = some '\n')
    (hblk : occursIn tok m.block = false)
    (hdf : dollarFree (m.block ++ m.anchor) = true) (s : List Char)
    (h : occursIn tok s = false) : occursIn tok (applyMarker s m) = false := by
  rw [applyMarker]
  by_cases ho : occursIn m.openTok s = true
  · rw [if_pos ho]
    exact h
  · rw [if_neg ho]
    cases hb : occursIn m.anchor s with
    | false =>
      rw [replaceFirst_not_occursIn hb]
      exact h
    | true =>
      rcases replaceFirst_occursIn m.anchor (m.block ++ m.anchor) hb
        with ⟨a, b, hs, hr⟩
      rw [substDollars_id m.anchor a b hdf] at hr
      rw [hr]
      have hbne : m.block ≠ [] := ne_nil_of_head? hbh
      rw [List.append_assoc m.block m.anchor b]
      cases hocc : occursIn tok (a ++ (m.block ++ (m.anchor ++ b))) with
      | false => rfl
      | true =>
        exfalso
        rcases occursIn_append_cases hocc with h' | h' | hspan
        · rw [← hs] at h
          rw [occursIn_append_left h' (m.anchor ++ b)] at h
          cases h
        · rcases occursIn_append_cases h' with h'' | h'' | hspan'
          · rw [h''] at hblk
            cases hblk
          · rw [← hs] at h
            rw [occursIn_append_right a h''] at h
            cases h
          · rcases hspan' with ⟨x, y, hxy, hx, hy, ⟨u', hu⟩, _⟩
            rcases span_mem_left hxy hx hu with ⟨c, hc1, hc2⟩
            rw [hbl] at hc1
            injection hc1 with hc1
            rw [← hc1] at hc2
            exact hnl hc2
        · rcases hspan with ⟨x, y, hxy, hx, hy, _, ⟨v', hv⟩⟩
          rcases span_mem_right hxy hy hv with ⟨c, hc1, hc2⟩
          rw [head?_append_left (m.anchor ++ b) hbne, hbh] at hc1
          injection hc1 with hc1
          rw [← hc1] at hc2
          exact hnl hc2

/-- Token preservation through a whole run of markers. -/
theorem occursIn_runMarkers_mono {tok : List Char} (h2 : '<' ∉ tok.drop 1) :
    ∀ ms : List Marker,
      (∀ m ∈ ms, m.anchor.head? = some '<' ∧
        dollarFree (m.block ++ m.anchor) = true) →
      ∀ s : List Char, occursIn tok s = true →
        occursIn tok (runMarkers ms s) = true := by
  intro ms
  induction ms with
  | nil =>
    intro _ s hs
    exact hs
  | cons m rest ih =>
    intro hms s hs
    have hm := hms m (List.mem_cons_self m rest)
    have hstep := occursIn_applyMarker_mono h2 m hm.1 hm.2 s hs
    exact ih (fun m' hm' => hms m' (List.mem_cons_of_mem m hm'))
      (applyMarker s m) hstep

/-- Token non-introduction through a whole run of markers. -/
theorem not_occursIn_runMarkers {tok : List Char} (hnl : '\n' ∉ tok) :
    ∀ ms : List Marker,
      (∀ m ∈ ms, m.block.head? = some '\n' ∧ lastChar m.block = some '\n' ∧
        occursIn tok m.block = false ∧
        dollarFree (m.block ++ m.anchor) = true) →
      ∀ s : List Char, occursIn tok s = false →
        occursIn tok (runMarkers ms s) = false := by
  intro ms
  induction ms with
  | nil =>
    intro _ s hs
    exact hs
  | cons m rest ih =>
    intro hms s hs
    have hm := hms m (List.mem_cons_self m rest)
    have hstep := not_occursIn_applyMarker hnl m hm.1 hm.2.1 hm.2.2.1
      hm.2.2.2 s hs
    exact ih (fun m' hm' => hms m' (List.mem_cons_of_mem m hm'))
      (applyMarker s m) hstep

/-- A marker whose open token is present, or whose anchor is absent, leaves
the text unchanged; a run of such markers is the identity. -/
theorem runMarkers_fixed : ∀ (ms : List Marker) (s : List Char),
    (∀ m ∈ ms, occursIn m.openTok s = true ∨ occursIn m.anchor s = false) →
    runMarkers ms s = s := by
  intro ms
  induction ms with
  | nil =>
    intro s _
    rfl
  | cons m rest ih =>
    intro s h
    have hstep : applyMarker s m = s := by
      rcases h m (List.mem_cons_self m rest) with ho | ha
      · rw [applyMarker, if_pos ho]
      · rw [applyMarker]
        by_cases ho : occursIn m.openTok s = true
        · rw [if_pos ho]
        · rw [if_neg ho, replaceFirst_not_occursIn ha]
    have : runMarkers (m :: rest) s = runMarkers rest (applyMarker s m) := rfl
    rw [this, hstep]
    exact ih s (fun m' hm' => h m' (List.mem_cons_of_mem m hm'))

/-- After one full run over well-formed, cross-consistent markers, every
marker either has its open token present or its anchor absent. -/
theorem runMarkers_establishes :
    ∀ ms : List Marker, (∀ m ∈ ms, MarkerWF m) →
      List.Pairwise (fun m m' => occursIn m.anchor m'.block = false) ms →
      ∀ s : List Char, ∀ m ∈ ms,
        occursIn m.openTok (runMarkers ms s) = true ∨
          occursIn m.anchor (runMarkers ms s) = false := by
  intro ms
  induction ms with
  | nil =>
    intro _ _ s m hm
    cases hm
  | cons mh rest ih =>
    intro hwf hpw s m hm
    rw [List.pairwise_cons] at hpw
    have hwfh := hwf mh (List.mem_cons_self mh rest)
    have hanchors : ∀ m' ∈ rest, m'.anchor.head? = some '<' ∧
        dollarFree (m'.block ++ m'.anchor) = true :=
      fun m' hm' => ⟨(hwf m' (List.mem_cons_of_mem _ hm')).anchorHead,
        (hwf m' (List.mem_cons_of_mem _ hm')).blockDollarFree⟩
    have hrun : runMarkers (mh :: rest) s = runMarkers rest (applyMarker s mh) := rfl
    rcases List.mem_cons.1 hm with rfl | hmr
    · rw [hrun]
      by_cases ho : occursIn m.openTok s = true
      · left
        have hs1 : applyMarker s m = s := by rw [applyMarker, if_pos ho]
        rw [hs1]
        exact occursIn_runMarkers_mono hwfh.openUniq rest hanchors s ho
      · cases hb : occursIn m.anchor s with
        | true =>
          left
          rcases replaceFirst_occursIn m.anchor (m.block ++ m.anchor) hb
            with ⟨a, b, hs, hr⟩
          rw [substDollars_id m.anchor a b hwfh.blockDollarFree] at hr
          have hs1 : applyMarker s m = a ++ ((m.block ++ m.anchor) ++ b) := by
            rw [applyMarker, if_neg ho, hr]
          have hob : occursIn m.openTok (applyMarker s m) = true := by
            rw [hs1]
            have t1 : occursIn m.openTok (m.block ++ m.anchor) = true :=
              occursIn_append_left hwfh.blockHasOpen _
            have t2 := occursIn_append_left t1 b
            exact occursIn_append_right a t2
          exact occursIn_runMarkers_mono hwfh.openUniq rest hanchors
            (applyMarker s m) hob
        | false =>
          right
          have hs1 : applyMarker s m = s := by
            rw [applyMarker, if_neg ho, replaceFirst_not_occursIn hb]
          rw [hs1]
          refine not_occursIn_runMarkers hwfh.anchorNoNl rest ?_ s hb
          intro m' hm'
          have hwf' := hwf m' (List.mem_cons_of_mem _ hm')
          exact ⟨hwf'.blockHead, hwf'.blockLast, hpw.1 m' hm',
            hwf'.blockDollarFree⟩
    · rw [hrun]
      exact ih (fun m' hm' => hwf m' (List.mem_cons_of_mem _ hm')) hpw.2
        (applyMarker s mh) m hmr

/-- Idempotence of a run of well-formed, cross-consistent markers. -/
theorem runMarkers_idem (ms : List Marker) (hwf : ∀ m ∈ ms, MarkerWF m)
    (hpw : List.Pairwise (fun m m' => occursIn m.anchor m'.block = false) ms)
    (s : List Char) : runMarkers ms (runMarkers ms s) = runMarkers ms s :=
  runMarkers_fixed ms (runMarkers ms s) (runMarkers_establishes ms hwf hpw s)

theorem forall_of_lastChar {A tok : List Char} {d : Char}
    (h : lastChar A = some d) (hd : d ∉ tok) :
    ∀ c, lastChar A = some c → c ∉ tok := by
  intro c hc
  rw [h] at hc
  injection hc with hc
  rw [← hc]
  exact hd

theorem forall_of_headChar {B tok : List Char} {d : Char}
    (h : B.head? = some d) (hd : d ∉ tok) :
    ∀ c, B.head? = some c → c ∉ tok := by
  intro c hc
  rw [h] at hc
  injection hc with hc
  rw [← hc]
  exact hd

/-- A token that occurs neither in `A`, `mid` nor `B`, and whose characters
avoid the last character of `A` and the first character of `B`, does not
occur in `A ++ (mid ++ B)`. -/
theorem not_occursIn_sandwich {tok A mid B : List Char}
    (hA : occursIn tok A = false) (hm : occursIn tok mid = false)
    (hB : occursIn tok B = false)
    (hAl : ∀ c, lastChar A = some c → c ∉ tok)
    (hBh : ∀ c, B.head? = some c → c ∉ tok) :
    occursIn tok (A ++ (mid ++ B)) = false := by
  cases hocc : occursIn tok (A ++ (mid ++ B)) with
  | false => rfl
  | true =>
    exfalso
    rcases occursIn_append_cases hocc with h' | h' | hspan
    · rw [h'] at hA
      cases hA
    · rcases occursIn_append_cases h' with h'' | h'' | hspan'
      · rw [h''] at hm
        cases hm
      · rw [h''] at hB
        cases hB
      · rcases hspan' with ⟨x, y, hxy, hx, hy, _, ⟨v', hv⟩⟩
        rcases span_mem_right hxy hy hv with ⟨c, hc1, hc2⟩
        exact hBh c hc1 hc2
    · rcases hspan with ⟨x, y, hxy, hx, hy, ⟨u', hu⟩, _⟩
      rcases span_mem_left hxy hx hu with ⟨c, hc1, hc2⟩
      exact hAl c hc1 hc2

theorem append_ne_nil_right {u v : List Char} (h : v ≠ []) : u ++ v ≠ [] := by
  intro hh
  exact h (List.append_eq_nil.1 hh).2

theorem head?_append_some {u : List Char} (v : List Char) {c : Char}
    (h : u.head? = some c) : (u ++ v).head? = some c := by
  rw [head?_append_left v (ne_nil_of_head? h)]
  exact h

theorem lastChar_append_some (u : List Char) {v : List Char} {c : Char}
    (h : lastChar v = some c) : lastChar (u ++ v) = some c := by
  have hv : v ≠ [] := by
    intro hh
    rw [hh] at h
    cases h
  rw [lastChar_append u hv]
  exact h

theorem demoFillBlock_head (ctx : Ctx) :
    (demoFillBlock ctx).head? = some '\n' :=
  head?_append_some _ (by decide)

theorem demoFillBlock_last (ctx : Ctx) :
    lastChar (demoFillBlock ctx) = some '\n' :=
  lastChar_append_some _ (lastChar_append_some _ (by decide))

theorem demoFillBlock_hasOpen (ctx : Ctx) :
    occursIn demoOpen (demoFillBlock ctx) = true :=
  occursIn_append_left (by decide) _

theorem clientBlock_head (ctx : Ctx) :
    (clientBlock ctx).head? = some '\n' :=
  head?_append_some _ (by decide)

theorem clientBlock_last (ctx : Ctx) :
    lastChar (clientBlock ctx) = some '\n' :=
  lastChar_append_some _ (lastChar_append_some _ (by decide))

theorem clientBlock_hasOpen (ctx : Ctx) :
    occursIn clientOpen (clientBlock ctx) = true :=
  occursIn_append_left (by decide) _

theorem envBlock_head (ctx : Ctx) : (envBlock ctx).head? = some '\n' :=
  head?_append_some _ (by decide)

theorem envBlock_last (ctx : Ctx) : lastChar (envBlock ctx) = some '\n' :=
  lastChar_append_some _ (lastChar_append_some _ (by decide))

theorem envBlock_hasOpen (ctx : Ctx) :
    occursIn envOpen (envBlock ctx) = true :=
  occursIn_append_left (by decide) _

theorem titleBlock_head (ctx : Ctx) : (titleBlock ctx).head? = some '\n' :=
  head?_append_some _ (by decide)

theorem titleBlock_last (ctx : Ctx) : lastChar (titleBlock ctx) = some '\n' :=
  lastChar_append_some _ (lastChar_append_some _ (lastChar_append_some _
    (lastChar_append_some _ (by decide))))

theorem titleBlock_hasOpen (ctx : Ctx) :
    occursIn titleOpen (titleBlock ctx) = true :=
  occursIn_append_left (by decide) _

theorem helperBlock_head (ctx : Ctx) : (helperBlock ctx).head? = some '\n' :=
  head?_append_some _ (by decide)

theorem helperBlock_last (ctx : Ctx) :
    lastChar (helperBlock ctx) = some '\n' :=
  lastChar_append_some _ (lastChar_append_some _ (lastChar_append_some _
    (lastChar_append_some _ (by decide))))

theorem helperBlock_hasOpen (ctx : Ctx) :
    occursIn helperOpen (helperBlock ctx) = true :=
  occursIn_append_left (by decide) _

theorem polyfillsBlock_dollarFree :
    dollarFree (polyfillsBlock ++ headAnchor) = true := by decide

theorem demoFillBlock_dollarFree (ctx : Ctx)
    (hf : dollarFree ctx.fill = true) :
    dollarFree (demoFillBlock ctx ++ bodyAnchor) = true := by
  refine dollarFree_append ?_ (by decide)
    (Or.inr (headSafe_of_head (show bodyAnchor.head? = some '<' by decide)
      (by decide)))
  rw [demoFillBlock]
  refine dollarFree_append (by decide) ?_
    (Or.inl (show lastChar demoPre ≠ some '$' by decide))
  exact dollarFree_append hf (by decide)
    (Or.inr (headSafe_of_head (show demoSuf.head? = some '\n' by decide)
      (by decide)))

theorem clientBlock_dollarFree (ctx : Ctx)
    (hts : dollarFree ctx.timeStr = true) :
    dollarFree (clientBlock ctx ++ headAnchor) = true := by
  have hscript : dollarFree (visualClientScript ctx) = true := by
    by_cases hl : ctx.localMode = true
    · rw [visualClientScript, if_pos hl]
      refine dollarFree_append (by decide) ?_
        (Or.inl (show lastChar clientLocalPre ≠ some '$' by decide))
      exact dollarFree_append hts (by decide)
        (Or.inr (headSafe_of_head
          (show scriptClose.head? = some '"' by decide) (by decide)))
    · rw [visualClientScript, if_neg hl]
      refine dollarFree_append (by decide) ?_
        (Or.inl (show lastChar clientCdnPre ≠ some '$' by decide))
      exact dollarFree_append hts (by decide)
        (Or.inr (headSafe_of_head
          (show scriptClose.head? = some '"' by decide) (by decide)))
  refine dollarFree_append ?_ (by decide)
    (Or.inr (headSafe_of_head (show headAnchor.head? = some '<' by decide)
      (by decide)))
  rw [clientBlock]
  refine dollarFree_append (by decide) ?_
    (Or.inl (show lastChar clientPre ≠ some '$' by decide))
  exact dollarFree_append hscript (by decide)
    (Or.inr (headSafe_of_head (show clientSuf.head? = some '\n' by decide)
      (by decide)))

theorem envBlock_dollarFree (ctx : Ctx)
    (hfold : dollarFree ctx.folder = true)
    (hlast : lastChar ctx.folder ≠ some '$') :
    dollarFree (envBlock ctx ++ headAnchor) = true := by
  refine dollarFree_append ?_ (by decide)
    (Or.inr (headSafe_of_head (show headAnchor.head? = some '<' by decide)
      (by decide)))
  rw [envBlock]
  refine dollarFree_append (by decide) ?_
    (Or.inl (show lastChar envPre ≠ some '$' by decide))
  exact dollarFree_append hfold (by decide) (Or.inl hlast)

theorem titleBlock_dollarFree (ctx : Ctx)
    (hfold : dollarFree ctx.folder = true)
    (hvis : dollarFree ctx.visualPath = true) :
    dollarFree (titleBlock ctx ++ headAnchor) = true := by
  refine dollarFree_append ?_ (by decide)
    (Or.inr (headSafe_of_head (show headAnchor.head? = some '<' by decide)
      (by decide)))
  rw [titleBlock]
  refine dollarFree_append (by decide) ?_
    (Or.inl (show lastChar titlePre ≠ some '$' by decide))
  refine dollarFree_append hfold ?_
    (Or.inr (headSafe_of_head
      (show ((" ".data : List Char) ++ (ctx.visualPath ++ titleSuf)).head? =
        some ' ' from head?_append_some _ (by decide)) (by decide)))
  refine dollarFree_append (by decide) ?_
    (Or.inl (show lastChar (" ".data) ≠ some '$' by decide))
  exact dollarFree_append hvis (by decide)
    (Or.inr (headSafe_of_head (show titleSuf.head? = some '"' by decide)
      (by decide)))

theorem helperBlock_dollarFree (ctx : Ctx) :
    dollarFree (helperBlock ctx ++ headAnchor) = true := by
  by_cases hl : ctx.localMode = true
  · rw [helperBlock, visualHelperUrl, if_pos hl]
    decide
  · rw [helperBlock, visualHelperUrl, if_neg hl]
    decide

/-- All six markers of the handler are well formed, provided the
interpolated inputs carry no `$`-substitution patterns (and the folder name
does not end in `$`, which would pair with the apostrophe that follows it
in the environment fragment). -/
theorem markers_wf (ctx : Ctx)
    (hdf1 : dollarFree ctx.fill = true)
    (hdf2 : dollarFree ctx.folder = true)
    (hdf3 : lastChar ctx.folder ≠ some '$')
    (hdf4 : dollarFree ctx.visualPath = true)
    (hdf5 : dollarFree ctx.timeStr = true) :
    ∀ m ∈ markers ctx, MarkerWF m := by
  intro m hm
  simp only [markers, List.mem_cons, List.not_mem_nil, or_false] at hm
  rcases hm with rfl | rfl | rfl | rfl | rfl | rfl
  · exact ⟨show '<' ∉ polyOpen.drop 1 by decide,
      show headAnchor.head? = some '<' by decide,
      show '\n' ∉ headAnchor by decide,
      show polyfillsBlock.head? = some '\n' by decide,
      show lastChar polyfillsBlock = some '\n' by decide,
      show occursIn polyOpen polyfillsBlock = true by decide,
      polyfillsBlock_dollarFree⟩
  · exact ⟨show '<' ∉ demoOpen.drop 1 by decide,
      show bodyAnchor.head? = some '<' by decide,
      show '\n' ∉ bodyAnchor by decide,
      demoFillBlock_head ctx, demoFillBlock_last ctx,
      demoFillBlock_hasOpen ctx, demoFillBlock_dollarFree ctx hdf1⟩
  · exact ⟨show '<' ∉ clientOpen.drop 1 by decide,
      show headAnchor.head? = some '<' by decide,
      show '\n' ∉ headAnchor by decide,
      clientBlock_head ctx, clientBlock_last ctx, clientBlock_hasOpen ctx,
      clientBlock_dollarFree ctx hdf5⟩
  · exact ⟨show '<' ∉ envOpen.drop 1 by decide,
      show headAnchor.head? = some '<' by decide,
      show '\n' ∉ headAnchor by decide,
      envBlock_head ctx, envBlock_last ctx, envBlock_hasOpen ctx,
      envBlock_dollarFree ctx hdf2 hdf3⟩
  · exact ⟨show '<' ∉ titleOpen.drop 1 by decide,
      show headAnchor.head? = some '<' by decide,
      show '\n' ∉ headAnchor by decide,
      titleBlock_head ctx, titleBlock_last ctx, titleBlock_hasOpen ctx,
      titleBlock_dollarFree ctx hdf2 hdf4⟩
  · exact ⟨show '<' ∉ helperOpen.drop 1 by decide,
      show headAnchor.head? = some '<' by decide,
      show '\n' ∉ headAnchor by decide,
      helperBlock_head ctx, helperBlock_last ctx, helperBlock_hasOpen ctx,
      helperBlock_dollarFree ctx⟩

/-- An anchor tag that does not occur in the fill does not occur in the
demo-fill fragment (the fill is newline-delimited inside the fragment). -/
theorem head_not_in_demoFillBlock (ctx : Ctx)
    (h : occursIn headAnchor ctx.fill = false) :
    occursIn headAnchor (demoFillBlock ctx) = false := by
  rw [demoFillBlock]
  exact not_occursIn_sandwich (by decide) h (by decide)
    (forall_of_lastChar (show lastChar demoPre = some '\n' by decide)
      (by decide))
    (forall_of_headChar (show demoSuf.head? = some '\n' by decide)
      (by decide))

/-- An anchor tag that does not occur in the timestamp does not occur in the
visual-client fragment. -/
theorem anchor_not_in_clientBlock (ctx : Ctx) (tok : List Char)
    (hts : occursIn tok ctx.timeStr = false)
    (h1 : occursIn tok clientPre = false)
    (h2 : occursIn tok clientSuf = false)
    (h3 : occursIn tok clientLocalPre = false)
    (h4 : occursIn tok clientCdnPre = false)
    (h5 : occursIn tok scriptClose = false)
    (hnl : '\n' ∉ tok) (heq : '=' ∉ tok) (hq : '"' ∉ tok) :
    occursIn tok (clientBlock ctx) = false := by
  rw [clientBlock]
  have hscript : occursIn tok (visualClientScript ctx) = false := by
    by_cases hl : ctx.localMode = true
    · rw [visualClientScript, if_pos hl]
      exact not_occursIn_sandwich h3 hts h5
        (forall_of_lastChar (show lastChar clientLocalPre = some '=' by decide)
          heq)
        (forall_of_headChar (show scriptClose.head? = some '"' by decide) hq)
    · rw [visualClientScript, if_neg hl]
      exact not_occursIn_sandwich h4 hts h5
        (forall_of_lastChar (show lastChar clientCdnPre = some '=' by decide)
          heq)
        (forall_of_headChar (show scriptClose.head? = some '"' by decide) hq)
  exact not_occursIn_sandwich h1 hscript h2
    (forall_of_lastChar (show lastChar clientPre = some '\n' by decide) hnl)
    (forall_of_headChar (show clientSuf.head? = some '\n' by decide) hnl)

/-- An anchor tag that does not occur in the folder name does not occur in
the environment fragment. -/
theorem anchor_not_in_envBlock (ctx : Ctx) (tok : List Char)
    (hfold : occursIn tok ctx.folder = false)
    (h1 : occursIn tok envPre = false) (h2 : occursIn tok envSuf = false)
    (hap : '\x27' ∉ tok) :
    occursIn tok (envBlock ctx) = false := by
  rw [envBlock]
  exact not_occursIn_sandwich h1 hfold h2
    (forall_of_lastChar (show lastChar envPre = some '\x27' by decide) hap)
    (forall_of_headChar (show envSuf.head? = some '\x27' by decide) hap)

/-- An anchor tag that occurs neither in the folder name nor in the visual
path does not occur in the document-title fragment. -/
theorem anchor_not_in_titleBlock (ctx : Ctx) (tok : List Char)
    (hfold : occursIn tok ctx.folder = false)
    (hvis : occursIn tok ctx.visualPath = false)
    (h1 : occursIn tok titlePre = false) (h2 : occursIn tok titleSuf = false)
    (h3 : occursIn tok " ".data = false)
    (hq : '"' ∉ tok) (hsp : ' ' ∉ tok) :
    occursIn tok (titleBlock ctx) = false := by
  rw [titleBlock]
  have hrest : occursIn tok (" ".data ++ (ctx.visualPath ++ titleSuf)) = false :=
    not_occursIn_sandwich h3 hvis h2
      (forall_of_lastChar (show lastChar (" ".data) = some ' ' by decide) hsp)
      (forall_of_headChar (show titleSuf.head? = some '"' by decide) hq)
  exact not_occursIn_sandwich h1 hfold hrest
    (forall_of_lastChar (show lastChar titlePre = some '"' by decide) hq)
    (forall_of_headChar
      (show ((" ".data : List Char) ++ (ctx.visualPath ++ titleSuf)).head? = some ' '
        from head?_append_some _ (by decide)) hsp)

/-- The head anchor never occurs in the (fully literal) helper fragment. -/
theorem head_not_in_helperBlock (ctx : Ctx) :
    occursIn headAnchor (helperBlock ctx) = false := by
  by_cases hl : ctx.localMode = true
  · rw [helperBlock, visualHelperUrl, if_pos hl]
    decide
  · rw [helperBlock, visualHelperUrl, if_neg hl]
    decide

/-- The body anchor never occurs in the (fully literal) helper fragment. -/
theorem body_not_in_helperBlock (ctx : Ctx) :
    occursIn bodyAnchor (helperBlock ctx) = false := by
  by_cases hl : ctx.localMode = true
  · rw [helperBlock, visualHelperUrl, if_pos hl]
    decide
  · rw [helperBlock, visualHelperUrl, if_neg hl]
    decide

/-- Cross-consistency of the six markers: provided the interpolated inputs
contain no anchor tags, no earlier marker's anchor occurs in a later
marker's fragment. -/
theorem markers_cross (ctx : Ctx)
    (h1 : occursIn headAnchor ctx.fill = false)
    (h2 : occursIn headAnchor ctx.folder = false)
    (h3 : occursIn bodyAnchor ctx.folder = false)
    (h4 : occursIn headAnchor ctx.visualPath = false)
    (h5 : occursIn bodyAnchor ctx.visualPath = false)
    (h6 : occursIn headAnchor ctx.timeStr = false)
    (h7 : occursIn bodyAnchor ctx.timeStr = false) :
    List.Pairwise (fun m m' => occursIn m.anchor m'.block = false)
      (markers ctx) := by
  have hdemoH := head_not_in_demoFillBlock ctx h1
  have hcliH := anchor_not_in_clientBlock ctx headAnchor h6 (by decide)
    (by decide) (by decide) (by decide) (by decide) (by decide) (by decide)
    (by decide)
  have hcliB := anchor_not_in_clientBlock ctx bodyAnchor h7 (by decide)
    (by decide) (by decide) (by decide) (by decide) (by decide) (by decide)
    (by decide)
  have henvH := anchor_not_in_envBlock ctx headAnchor h2 (by decide)
    (by decide) (by decide)
  have henvB := anchor_not_in_envBlock ctx bodyAnchor h3 (by decide)
    (by decide) (by decide)
  have htitH := anchor_not_in_titleBlock ctx headAnchor h2 h4 (by decide)
    (by decide) (by decide) (by decide) (by decide)
  have htitB := anchor_not_in_titleBlock ctx bodyAnchor h3 h5 (by decide)
    (by decide) (by decide) (by decide) (by decide)
  have hhelH := head_not_in_helperBlock ctx
  have hhelB := body_not_in_helperBlock ctx
  rw [markers]
  refine List.Pairwise.cons ?_ (List.Pairwise.cons ?_ (List.Pairwise.cons ?_
    (List.Pairwise.cons ?_ (List.Pairwise.cons ?_ (List.Pairwise.cons ?_
      List.Pairwise.nil)))))
  · intro m' hm'
    simp only [List.mem_cons, List.not_mem_nil, or_false] at hm'
    rcases hm' with rfl | rfl | rfl | rfl | rfl
    · exact hdemoH
    · exact hcliH
    · exact henvH
    · exact htitH
    · exact hhelH
  · intro m' hm'
    simp only [List.mem_cons, List.not_mem_nil, or_false] at hm'
    rcases hm' with rfl | rfl | rfl | rfl
    · exact hcliB
    · exact henvB
    · exact htitB
    · exact hhelB
  · intro m' hm'
    simp only [List.mem_cons, List.not_mem_nil, or_false] at hm'
    rcases hm' with rfl | rfl | rfl
    · exact henvH
    · exact htitH
    · exact hhelH
  · intro m' hm'
    simp only [List.mem_cons, List.not_mem_nil, or_false] at hm'
    rcases hm' with rfl | rfl
    · exact htitH
    · exact hhelH
  · intro m' hm'
    simp only [List.mem_cons, List.not_mem_nil, or_false] at hm'
    rcases hm' with rfl
    · exact hhelH
  · intro m' hm'
    simp only [List.not_mem_nil] at hm'

/-- C1 (amended): the marker-injection pipeline of the `bundled` handler is
idempotent on every document text, provided the interpolated inputs (fill,
folder name, visual path, timestamp) neither contain the anchor tags
`</head>` / `</body>` nor trigger the `$`-substitution of
`String.prototype.replace` (no `$$`, `$&`, `$\x60`, `$\x27` pair inside
them, and the folder name does not end in `$`, which would pair with the
apostrophe following it in the environment fragment); under these
hypotheses a second application with identical target, mode, fill and time
inputs returns the first application's text unchanged. -/
theorem applyMarkup_idem (ctx : Ctx)
    (h1 : occursIn headAnchor ctx.fill = false)
    (h2 : occursIn headAnchor ctx.folder = false)
    (h3 : occursIn bodyAnchor ctx.folder = false)
    (h4 : occursIn headAnchor ctx.visualPath = false)
    (h5 : occursIn bodyAnchor ctx.visualPath = false)
    (h6 : occursIn headAnchor ctx.timeStr = false)
    (h7 : occursIn bodyAnchor ctx.timeStr = false)
    (h8 : dollarFree ctx.fill = true)
    (h9 : dollarFree ctx.folder = true)
    (h10 : lastChar ctx.folder ≠ some '$')
    (h11 : dollarFree ctx.visualPath = true)
    (h12 : dollarFree ctx.timeStr = true)
    (s : List Char) :
    applyMarkup ctx (applyMarkup ctx s) = applyMarkup ctx s :=
  runMarkers_idem (markers ctx) (markers_wf ctx h8 h9 h10 h11 h12)
    (markers_cross ctx h1 h2 h3 h4 h5 h6 h7) s

/-- Witness for C1: the amended idempotence at the sample inputs. -/
theorem applyMarkup_idem_witness :
    applyMarkup ctxSample (applyMarkup ctxSample docSample) =
      applyMarkup ctxSample docSample :=
  applyMarkup_idem ctxSample (by decide) (by decide) (by decide) (by decide)
    (by decide) (by decide) (by decide) (by decide) (by decide) (by decide)
    (by decide) (by decide) docSample

set_option maxRecDepth 40000 in
/-- Counterexample for C1 as frozen: with a fill that contains `</head>` and
a document that has a `</body>` but no `</head>`, the first pass cannot
place the polyfills marker but injects the fill, after which the document
does contain `</head>`; the second pass therefore injects the polyfills
marker and the result differs from the first pass. -/
theorem applyMarkup_not_idem_cx :
    applyMarkup ctxHeadFill (applyMarkup ctxHeadFill docBodyOnly) ≠
      applyMarkup ctxHeadFill docBodyOnly := by decide

/-- C10: whenever a document does not contain a marker's anchor tag
(`</head>` for the head-anchored markers, `</body>` for the demo-fill
marker), that marker's injection step returns the text completely
unchanged; `applyMarker` is a total function with no error output, so the
content is silently not inserted. -/
theorem applyMarker_noop_without_anchor (ctx : Ctx) (m : Marker)
    (_hm : m ∈ markers ctx) (s : List Char)
    (h : occursIn m.anchor s = false) : applyMarker s m = s := by
  rw [applyMarker]
  by_cases ho : occursIn m.openTok s = true
  · rw [if_pos ho]
  · rw [if_neg ho, replaceFirst_not_occursIn h]

/-- Witness for C10: the polyfills step leaves a head-less document
unchanged. -/
theorem applyMarker_noop_without_anchor_witness :
    applyMarker docBodyOnly
      { openTok := polyOpen, block := polyfillsBlock, anchor := headAnchor } =
      docBodyOnly :=
  applyMarker_noop_without_anchor ctxSample
    { openTok := polyOpen, block := polyfillsBlock, anchor := headAnchor }
    (List.mem_cons_self _ _) docBodyOnly (by decide)

set_option maxRecDepth 40000 in
/-- Counterexample for C3 as frozen: on a document with no existing markers
the pass inserts the polyfills marker as well (six markers, not five), and
the visual-client marker lands before the environment marker in the
document, contradicting the claimed order (environment first, then
demo-fill, then visual-client). -/
theorem marker_scenario_cx :
    occursIn polyOpen docSample = false ∧
    occursIn polyOpen (applyMarkup ctxSample docSample) = true ∧
    firstIdx clientOpen (applyMarkup ctxSample docSample) = some 269 ∧
    firstIdx envOpen (applyMarkup ctxSample docSample) = some 425 ∧
    269 < 425 := by decide

set_option maxRecDepth 40000 in
/-- C3 (amended): for a document with no existing markers and the standard
anchor layout (`</head>` before `</body>`), one injection pass inserts all
six markers, each exactly once, in the document order polyfills,
visual-client, environment, document-title, helper, demo-fill. -/
theorem marker_scenario_amended :
    countOccur polyOpen bundledSample = 1 ∧
    countOccur demoOpen bundledSample = 1 ∧
    countOccur clientOpen bundledSample = 1 ∧
    countOccur envOpen bundledSample = 1 ∧
    countOccur titleOpen bundledSample = 1 ∧
    countOccur helperOpen bundledSample = 1 ∧
    firstIdx polyOpen bundledSample = some 29 ∧
    firstIdx clientOpen bundledSample = some 269 ∧
    firstIdx envOpen bundledSample = some 425 ∧
    firstIdx titleOpen bundledSample = some 524 ∧
    firstIdx helperOpen bundledSample = some 640 ∧
    firstIdx demoOpen bundledSample = some 910 ∧
    29 < 269 ∧ 269 < 425 ∧ 425 < 524 ∧ 524 < 640 ∧ 640 < 910 := by decide

theorem runStartupAux_length (basePort : Nat) (f : Nat → Bool) :
    ∀ (sel : List (List Char)) (k : Nat),
      (runStartupAux basePort f k sel).length = sel.length := by
  intro sel
  induction sel with
  | nil => intro k; rfl
  | cons folder rest ih =>
    intro k
    simp [runStartupAux, ih (k + 1)]

theorem runStartupAux_getElem? (basePort : Nat) (f : Nat → Bool) :
    ∀ (sel : List (List Char)) (k i : Nat),
      (runStartupAux basePort f k sel)[i]? =
        Option.map
          (fun folder => startTarget basePort (k + i) folder (f (k + i)))
          sel[i]? := by
  intro sel
  induction sel with
  | nil =>
    intro k i
    simp [runStartupAux]
  | cons folder rest ih =>
    intro k i
    cases i with
    | zero =>
      simp [runStartupAux]
    | succ n =>
      have hkn : k + 1 + n = k + (n + 1) := by omega
      simp only [runStartupAux, List.getElem?_cons_succ]
      rw [ih (k + 1) n, hkn]

theorem sentryReportsAux_mem (f : Nat → Bool) :
    ∀ (sel : List (List Char)) (k i : Nat), i < sel.length →
      f (k + i) = true → (k + i) ∈ sentryReportsAux f k sel := by
  intro sel
  induction sel with
  | nil =>
    intro k i hi _
    simp at hi
  | cons folder rest ih =>
    intro k i hi hf
    cases i with
    | zero =>
      simp only [Nat.add_zero] at hf ⊢
      simp [sentryReportsAux, hf]
    | succ n =>
      have hn : n < rest.length := by
        simpa using Nat.lt_of_succ_lt_succ (by simpa using hi)
      have hkn : k + 1 + n = k + (n + 1) := by omega
      have := ih (k + 1) n hn (by rw [hkn]; exact hf)
      rw [hkn] at this
      simp only [sentryReportsAux]
      exact List.mem_append.2 (Or.inr this)

/-- C2: for base port 1200 and ordinal index `i` the bundler port is
`1200 + i`; distinct ordinal indices receive distinct ports; and on a
successful start the loop records exactly this port in the session record
of target `i`. -/
theorem port_assignment (selected : List (List Char))
    (serveFails : Nat → Bool) (i j : Nat) (hij : i ≠ j) :
    portFor 1200 i = 1200 + i ∧
    portFor 1200 i ≠ portFor 1200 j ∧
    (∀ folder, selected[i]? = some folder → serveFails i = false →
      (runStartup 1200 selected serveFails)[i]? =
        some { folder := folder, port := some (portFor 1200 i),
               error := false, served := true }) := by
  refine ⟨rfl, ?_, ?_⟩
  · simp only [portFor, ne_eq]
    omega
  · intro folder hfold hserve
    rw [runStartup, runStartupAux_getElem? 1200 serveFails selected 0 i, hfold]
    simp [startTarget, hserve, Nat.zero_add]

/-- Witness for C2 at two selected folders and no failures. -/
theorem port_assignment_witness :
    (runStartup 1200 [folderA, folderB] (fun _ => false))[0]? =
      some { folder := folderA, port := some (portFor 1200 0),
             error := false, served := true } :=
  (port_assignment [folderA, folderB] (fun _ => false) 0 1
    (by decide)).2.2 folderA (by decide) rfl

/-- C4: the session record's `error` flag is `false` on both the success
path and the failure path of the startup loop (part_001 lines 345 and 353
both assign `false`); in particular a target whose serve call throws does
not get `error = true`, contrary to the intended semantics. -/
theorem error_flag_always_false (basePort i : Nat) (folder : List Char)
    (serveFails : Bool) :
    (startTarget basePort i folder serveFails).error = false := by
  cases serveFails with
  | false => rfl
  | true => rfl

/-- C5: a synchronous serve failure for target `k` is caught inside that
target's loop iteration and reported to Sentry; the loop still produces one
session record per selected target, and every record other than `k`'s is
exactly what it would have been without the failure. -/
theorem startup_failure_isolated (selected : List (List Char))
    (f g : Nat → Bool) (k : Nat) (hk : f k = true)
    (hagree : ∀ j, j ≠ k → f j = g j) :
    (runStartup 1200 selected f).length = selected.length ∧
    (∀ i, i ≠ k →
      (runStartup 1200 selected f)[i]? = (runStartup 1200 selected g)[i]?) ∧
    (k < selected.length → k ∈ sentryReports selected f) := by
  refine ⟨runStartupAux_length 1200 f selected 0, ?_, ?_⟩
  · intro i hi
    rw [runStartup, runStartup,
      runStartupAux_getElem? 1200 f selected 0 i,
      runStartupAux_getElem? 1200 g selected 0 i]
    simp only [Nat.zero_add]
    rw [hagree i hi]
  · intro hlen
    have := sentryReportsAux_mem f selected 0 k hlen (by simpa using hk)
    simpa [sentryReports] using this

/-- Witness for C5: target 0 of two fails, target 1's record matches the
failure-free run and the failure is reported. -/
theorem startup_failure_isolated_witness :
    (runStartup 1200 [folderA, folderB] (fun n => decide (n = 0)))[1]? =
      (runStartup 1200 [folderA, folderB] (fun _ => false))[1]? ∧
    0 ∈ sentryReports [folderA, folderB] (fun n => decide (n = 0)) :=
  ⟨(startup_failure_isolated [folderA, folderB] (fun n => decide (n = 0))
      (fun _ => false) 0 (by decide)
      (fun j hj => by simp [hj])).2.1 1 (by decide),
    (startup_failure_isolated [folderA, folderB] (fun n => decide (n = 0))
      (fun _ => false) 0 (by decide)
      (fun j hj => by simp [hj])).2.2 (by decide)⟩

/-- C7: with the reserved ports available and a valid config, an empty
discovered-folders set aborts the run fatally with `noTargetsFound`, and a
non-empty discovered set with an empty interactive selection aborts fatally
with `noTargetsSelected`; in both cases the result is an error, so the
startup loop that creates bundlers is never reached. -/
theorem empty_target_guards (probe : Nat → ProbeResult) (file : ConfigFile)
    (folders selected : List (List Char)) (serveFails : Nat → Bool)
    (hports : preflightBusyPort probe = none)
    (hcfg : checkConfig file = true) (hne : folders ≠ []) :
    devRun probe file [] selected serveFails =
      Except.error FatalError.noTargetsFound ∧
    devRun probe file folders [] serveFails =
      Except.error FatalError.noTargetsSelected := by
  constructor
  · rw [devRun, hports]
    simp [hcfg]
  · rw [devRun, hports]
    cases folders with
    | nil => exact absurd rfl hne
    | cons x xs => simp [hcfg]

/-- Witness for C7 at concrete inputs. -/
theorem empty_target_guards_witness :
    devRun (fun _ => ProbeResult.free) cfgSample [] [folderA]
        (fun _ => false) = Except.error FatalError.noTargetsFound ∧
    devRun (fun _ => ProbeResult.free) cfgSample [folderA] []
        (fun _ => false) = Except.error FatalError.noTargetsSelected :=
  empty_target_guards (fun _ => ProbeResult.free) cfgSample [folderA]
    [folderA] (fun _ => false) (by decide) (by decide) (by decide)

/-- C8: the run aborts with a port error precisely when one of the reserved
ports 1200 or 1400 is definitively found in use; and when the availability
probe itself errors on every port, the check is skipped and the run behaves
exactly as if the ports had been found free. -/
theorem preflight_port_policy (probe : Nat → ProbeResult) (file : ConfigFile)
    (folders selected : List (List Char)) (serveFails : Nat → Bool) :
    ((∃ p, devRun probe file folders selected serveFails =
        Except.error (FatalError.portBusy p)) ↔
      (probe 1200 = ProbeResult.inUse ∨ probe 1400 = ProbeResult.inUse)) ∧
    ((∀ p, probe p = ProbeResult.err) →
      devRun probe file folders selected serveFails =
        devRun (fun _ => ProbeResult.free) file folders selected serveFails) := by
  constructor
  · by_cases h1 : probe 1200 = ProbeResult.inUse
    · simp [devRun, preflightBusyPort, preflightLoop, portsToCheck, h1]
    · by_cases h2 : probe 1400 = ProbeResult.inUse
      · simp [devRun, preflightBusyPort, preflightLoop, portsToCheck, h1, h2]
      · simp only [devRun, preflightBusyPort, preflightLoop, portsToCheck,
          if_neg h1, if_neg h2]
        constructor
        · rintro ⟨p, hp⟩
          exfalso
          cases hc : checkConfig file with
          | false => simp [hc] at hp
          | true =>
            cases hf : folders.isEmpty with
            | true => simp [hc, hf] at hp
            | false =>
              cases hs : selected.isEmpty with
              | true => simp [hc, hf, hs] at hp
              | false => simp [hc, hf, hs] at hp
        · rintro (h | h)
          · exact absurd h h1
          · exact absurd h h2
  · intro hall
    have h12 := hall 1200
    have h14 := hall 1400
    simp [devRun, preflightBusyPort, preflightLoop, portsToCheck, h12, h14]

/-- Witness for C8: with an erroring probe the run proceeds exactly as with
free ports. -/
theorem preflight_port_policy_witness :
    devRun (fun _ => ProbeResult.err) cfgSample [folderA] [folderA]
        (fun _ => false) =
      devRun (fun _ => ProbeResult.free) cfgSample [folderA] [folderA]
        (fun _ => false) :=
  (preflight_port_policy (fun _ => ProbeResult.err) cfgSample [folderA]
    [folderA] (fun _ => false)).2 (fun _ => rfl)

theorem fireTimers_counts (numBundlers : Nat) :
    ∀ (ts : List Nat) (s : WatchState),
      (fireTimers numBundlers ts s).schemaValidations =
          s.schemaValidations + ts.length ∧
        (fireTimers numBundlers ts s).fillRegenerations =
          s.fillRegenerations + ts.length ∧
        (fireTimers numBundlers ts s).rebuildSignals =
          s.rebuildSignals + ts.length * numBundlers := by
  intro ts
  induction ts with
  | nil =>
    intro s
    simp [fireTimers]
  | cons t rest ih =>
    intro s
    simp only [fireTimers, List.length_cons]
    rcases ih (WatchState.mk rest (s.schemaValidations + 1)
      (s.fillRegenerations + 1) (s.rebuildSignals + numBundlers))
      with ⟨e1, e2, e3⟩
    dsimp only at e1 e2 e3
    refine ⟨?_, ?_, ?_⟩
    · rw [e1]
      omega
    · rw [e2]
      omega
    · rw [e3, Nat.succ_mul]
      omega

theorem schemaEvents_foldl (events : List Nat) :
    ∀ s0 : WatchState,
      (events.foldl (fun s t => schemaChangeEvent t s) s0).pendingTimers.length =
          s0.pendingTimers.length + events.length ∧
        (events.foldl (fun s t => schemaChangeEvent t s) s0).schemaValidations =
          s0.schemaValidations ∧
        (events.foldl (fun s t => schemaChangeEvent t s) s0).fillRegenerations =
          s0.fillRegenerations ∧
        (events.foldl (fun s t => schemaChangeEvent t s) s0).rebuildSignals =
          s0.rebuildSignals := by
  induction events with
  | nil =>
    intro s0
    simp
  | cons t rest ih =>
    intro s0
    simp only [List.foldl_cons]
    rcases ih (schemaChangeEvent t s0) with ⟨e1, e2, e3, e4⟩
    refine ⟨?_, ?_, ?_, ?_⟩
    · rw [e1]
      simp [schemaChangeEvent]
      omega
    · rw [e2]
      simp [schemaChangeEvent]
    · rw [e3]
      simp [schemaChangeEvent]
    · rw [e4]
      simp [schemaChangeEvent]

/-- C6 (amended): the schema watcher schedules one uncancelled 200 ms timer
per change event, so a burst of `N` events produces `N` schema
re-validations, `N` fill regenerations and `N` rebuild triggers on every
live bundler handle — one full cycle per event, with no coalescing. -/
theorem schema_watch_per_event_cycles (numBundlers : Nat)
    (events : List Nat) :
    (runSchemaWatch numBundlers events).schemaValidations = events.length ∧
    (runSchemaWatch numBundlers events).fillRegenerations = events.length ∧
    (runSchemaWatch numBundlers events).rebuildSignals =
      events.length * numBundlers := by
  rcases schemaEvents_foldl events initialWatchState with ⟨e1, e2, e3, e4⟩
  rcases fireTimers_counts numBundlers
    (events.foldl (fun s t => schemaChangeEvent t s)
      initialWatchState).pendingTimers
    (events.foldl (fun s t => schemaChangeEvent t s) initialWatchState)
    with ⟨f1, f2, f3⟩
  rw [runSchemaWatch]
  refine ⟨?_, ?_, ?_⟩
  · rw [f1, e2, e1]
    simp [initialWatchState]
  · rw [f2, e3, e1]
    simp [initialWatchState]
  · rw [f3, e4, e1]
    simp [initialWatchState]

/-- Counterexample for C6 as frozen: two change events 50 ms apart (well
inside the 200 ms quiet window) produce two validation+rebuild cycles, not
exactly one. -/
theorem schema_watch_not_coalesced_cx :
    (runSchemaWatch 1 [0, 50]).schemaValidations = 2 ∧
    (runSchemaWatch 1 [0, 50]).schemaValidations ≠ 1 ∧
    (runSchemaWatch 1 [0, 50]).rebuildSignals = 2 := by decide

/-- C9: a config-file change event re-runs the validator exactly once and
records its verdict, and leaves the bundler session records and the rebuild
state untouched — no rebuild is triggered on any bundler handle. -/
theorem config_watch_frame (file : ConfigFile) (s : SessionState) :
    (configChangeEvent file s).bundlers = s.bundlers ∧
    (configChangeEvent file s).rebuildSignals = s.rebuildSignals ∧
    (configChangeEvent file s).configValidations = s.configValidations + 1 ∧
    (configChangeEvent file s).lastConfigResult = some (checkConfig file) :=
  ⟨rfl, rfl, rfl, rfl⟩
